import Mathlib

/-!
Verification of the basyx-python-sdk local-file backend and submodel model.

This development shallowly embeds the two source modules
basyx/aas/backend/local_file.py and basyx/aas/model/submodel.py.

Modelling conventions:
* Machine-level effects are made explicit: the file system is an association
  list from file names (inside the directory of the store) to parsed document
  contents; Python object identity is modelled by a heap, an association list
  from addresses to object states; the weak identity cache of the store is an
  association list from identifiers to addresses.
* Every mutating operation returns the post state together with an Except or
  Option error; when the Python code raises midway, the returned post state
  records exactly the mutations performed before the raise.
* The JSON serializer and deserializer are external collaborators of the two
  modules; a stored document is modelled as the data it determines: the
  identification of the serialized object and an abstract domain payload.
* Enum and reference types that the claims treat as abstract (References,
  value types, durations) are modelled as Nat or Int.
-/

namespace Basyx

/-! ## SHA-256, as used by hashlib.sha256(...).hexdigest() -/

namespace Sha256

/-- Modulus of 32-bit arithmetic. -/
def M32 : Nat := 4294967296

/-- Addition modulo 2 to the 32. -/
def add32 (a b : Nat) : Nat := (a + b) % M32

/-- Right rotation of a 32-bit word. -/
def rotr (x n : Nat) : Nat := ((x >>> n) ||| (x <<< (32 - n))) % M32

/-- Bitwise complement of a 32-bit word. -/
def bnot32 (x : Nat) : Nat := x ^^^ 4294967295

/-- UTF-8 encoding of a character, as in Python str.encode. -/
def utf8Char (c : Char) : List Nat :=
  let n := c.toNat
  if n < 128 then [n]
  else if n < 2048 then [192 + n / 64, 128 + n % 64]
  else if n < 65536 then [224 + n / 4096, 128 + (n / 64) % 64, 128 + n % 64]
  else [240 + n / 262144, 128 + (n / 4096) % 64, 128 + (n / 64) % 64, 128 + n % 64]

/-- UTF-8 encoding of a string as a byte list, as in Python str.encode. -/
def utf8 (s : String) : List Nat := s.data.flatMap utf8Char

/-- Primality by trial division. -/
def isPrime (n : Nat) : Bool :=
  2 ≤ n && ((List.range n).all fun d => d < 2 || n % d != 0)

/-- The first 64 primes, 2 through 311. -/
def first64Primes : List Nat := (List.range 312).filter isPrime

/-- Integer cube root by binary digits, for arguments below 2 to the 120. -/
def icbrt (n : Nat) : Nat :=
  (List.range 40).foldl (fun r i =>
    let t := r + (1 <<< (39 - i))
    if t * t * t ≤ n then t else r) 0

/-- The SHA-256 round constants (FIPS 180-4): the first 32 fractional bits of
the cube roots of the first 64 primes. -/
def K : Array Nat :=
  ((first64Primes.map fun p => icbrt (p <<< 96) % M32)).toArray

/-- The working state of the compression function: eight 32-bit words. -/
structure Hash where
  a : Nat
  b : Nat
  c : Nat
  d : Nat
  e : Nat
  f : Nat
  g : Nat
  h : Nat

/-- The SHA-256 initial hash value (FIPS 180-4): the first 32 fractional bits
of the square roots of the first 8 primes. -/
def H0 : Hash :=
  match (first64Primes.take 8).map fun p => Nat.sqrt (p <<< 64) % M32 with
  | [a, b, c, d, e, f, g, h] => ⟨a, b, c, d, e, f, g, h⟩
  | _ => ⟨0, 0, 0, 0, 0, 0, 0, 0⟩

/-- Pad a message given as a byte list to a multiple of 64 bytes, SHA-256 style. -/
def pad (msg : List Nat) : List Nat :=
  let L := msg.length
  msg ++ [128] ++ List.replicate ((119 - L % 64) % 64) 0
      ++ (List.range 8).map (fun i => ((8 * L) >>> (8 * (7 - i))) % 256)

/-- Group a byte list into big-endian 32-bit words. -/
def toWords : List Nat → List Nat
  | b0 :: b1 :: b2 :: b3 :: rest =>
      ((b0 <<< 24) ||| (b1 <<< 16) ||| (b2 <<< 8) ||| b3) :: toWords rest
  | _ => []

/-- Group a word list into 16-word blocks. -/
def toBlocks : List Nat → List (Array Nat)
  | w0 :: w1 :: w2 :: w3 :: w4 :: w5 :: w6 :: w7 ::
    w8 :: w9 :: w10 :: w11 :: w12 :: w13 :: w14 :: w15 :: rest =>
      #[w0, w1, w2, w3, w4, w5, w6, w7, w8, w9, w10, w11, w12, w13, w14, w15] :: toBlocks rest
  | _ => []

/-- Extend a 16-word block to the 64-word message schedule. -/
def schedule (ws : Array Nat) : Array Nat :=
  (List.range 48).foldl (fun w i =>
    let t := i + 16
    let x15 := w.getD (t - 15) 0
    let x2 := w.getD (t - 2) 0
    let s0 := (rotr x15 7) ^^^ (rotr x15 18) ^^^ (x15 >>> 3)
    let s1 := (rotr x2 17) ^^^ (rotr x2 19) ^^^ (x2 >>> 10)
    w.push (add32 (add32 (w.getD (t - 16) 0) s0) (add32 (w.getD (t - 7) 0) s1))) ws

/-- One round of the compression function; kw is the sum of round constant and
message-schedule word. -/
def round (st : Hash) (kw : Nat) : Hash :=
  let S1 := (rotr st.e 6) ^^^ (rotr st.e 11) ^^^ (rotr st.e 25)
  let ch := (st.e &&& st.f) ^^^ ((bnot32 st.e) &&& st.g)
  let temp1 := add32 (add32 st.h S1) (add32 ch kw)
  let S0 := (rotr st.a 2) ^^^ (rotr st.a 13) ^^^ (rotr st.a 22)
  let maj := (st.a &&& st.b) ^^^ (st.a &&& st.c) ^^^ (st.b &&& st.c)
  let temp2 := add32 S0 maj
  ⟨add32 temp1 temp2, st.a, st.b, st.c, add32 st.d temp1, st.e, st.f, st.g⟩

/-- Process one 16-word block. -/
def compress (st : Hash) (block : Array Nat) : Hash :=
  let w := schedule block
  let fin := (List.range 64).foldl (fun s i => round s (add32 (K.getD i 0) (w.getD i 0))) st
  ⟨add32 st.a fin.a, add32 st.b fin.b, add32 st.c fin.c, add32 st.d fin.d,
   add32 st.e fin.e, add32 st.f fin.f, add32 st.g fin.g, add32 st.h fin.h⟩

/-- Lowercase hex digit for a value below 16. -/
def hexDigit (n : Nat) : Char := if n < 10 then Char.ofNat (48 + n) else Char.ofNat (87 + n)

/-- Lowercase 8-hex-digit rendering of a 32-bit word. -/
def wordHex (w : Nat) : List Char :=
  (List.range 8).map (fun i => hexDigit ((w >>> (4 * (7 - i))) % 16))

/-- SHA-256 digest of a byte list as a lowercase hex string; this models
hashlib.sha256(bytes).hexdigest(). -/
def sha256hex (msg : List Nat) : String :=
  let fin := (toBlocks (toWords (pad msg))).foldl compress H0
  String.mk (List.flatten ([fin.a, fin.b, fin.c, fin.d, fin.e, fin.f, fin.g, fin.h].map wordHex))

end Sha256

/-! ## Python string primitives used by the sources -/

/-- Python str.rstrip(chars): remove trailing characters that occur in chars. -/
def rstrip (s : String) (chars : String) : String :=
  String.mk (s.data.reverse.dropWhile (fun c => chars.data.contains c)).reverse

/-- Recursion core of pyReplace, with fuel bounding the scan length. -/
def replaceFuel (pat rep : List Char) : Nat → List Char → List Char
  | _, [] => []
  | 0, l => l
  | fuel + 1, c :: rest =>
    if pat.isPrefixOf (c :: rest) then rep ++ replaceFuel pat rep fuel ((c :: rest).drop pat.length)
    else c :: replaceFuel pat rep fuel rest

/-- Python str.replace(pat, rep): replace every non-overlapping occurrence of pat,
scanning left to right. The sources only use it with a nonempty pattern. -/
def pyReplace (s pat rep : String) : String :=
  if pat.data.isEmpty then s
  else String.mk (replaceFuel pat.data rep.data s.data.length s.data)

/-- Lowercase hexadecimal digit characters. -/
def isHexLower (c : Char) : Bool :=
  ("0123456789abcdef".data).contains c

/-! ## Data model of the store: identifiers, documents, objects -/

/-- An AAS Identifier: the name of its id_type enum member and the id string.
The Python code only consumes identifier.id_type.name and identifier.id, so the
pair of strings is the faithful image. -/
structure Identifier where
  id_type : String
  id : String
deriving DecidableEq

/-- The parsed content of one stored JSON document, json.dump of a dict with the
single property data: the identification of the serialized Identifiable and an
abstract rendering of the rest of its serialized state. -/
structure Doc where
  identification : Identifier
  payload : Nat
deriving DecidableEq

/-- The state of one live Identifiable object: its identification, its source
attribute, and an abstract rendering of its remaining domain state. -/
structure ObjState where
  identification : Identifier
  source : String
  payload : Nat
deriving DecidableEq

/-- Serialization of a live object into a document (the JSON encoder keeps the
identification and the domain state; the source attribute is not serialized). -/
def serialize (x : ObjState) : Doc := ⟨x.identification, x.payload⟩

/-- Deserialization of a document into a brand new object; its source attribute
starts empty. -/
def deserialize (d : Doc) : ObjState := ⟨d.identification, "", d.payload⟩

/-- Modelled from the spec: Referable.update_from lives in aas.model.base, which
is not among the sources. Per the spec it is a merge in place rather than an
object replacement: the state loaded from storage is merged into the receiving
object while its identity is untouched; the source attribute of the receiver is
kept. We model the merged state as the identification and domain payload of the
other object together with the receiver source. -/
def update_from (self other : ObjState) : ObjState :=
  { self with identification := other.identification, payload := other.payload }

/-! ## Association list primitives (file system, heap and cache are maps) -/

/-- Lookup in an association list. -/
def lookupA {α β : Type} [DecidableEq α] : List (α × β) → α → Option β
  | [], _ => none
  | (k, v) :: rest, k2 => if k = k2 then some v else lookupA rest k2

/-- Remove every binding of a key from an association list. -/
def eraseA {α β : Type} [DecidableEq α] : List (α × β) → α → List (α × β)
  | [], _ => []
  | (k, v) :: rest, k2 => if k = k2 then eraseA rest k2 else (k, v) :: eraseA rest k2

/-- Set the binding of a key in an association list. -/
def insertA {α β : Type} [DecidableEq α] (l : List (α × β)) (k : α) (v : β) : List (α × β) :=
  (k, v) :: eraseA l k

/-! ## LocalFileObjectStore -/

/-- Python object identity, as a heap address. -/
abbrev Addr := Nat

/-- Errors raised by the embedded code. -/
inductive Err where
  | keyError : Err
  | fileNotFound : Err
  | sourceError : Err
  | duplicateKeyError : Err
  | constraintViolation (n : Nat) : Err
  | valueError : Err
deriving DecidableEq

/-- The state of a LocalFileObjectStore together with the world it acts on:
the directory content (file name inside the directory mapped to parsed document
content), the heap of live objects, the weak identity cache _object_cache
(entries for dead objects simply never occur here, since no garbage collection
step is modelled), and an allocation counter for fresh objects. -/
structure Store where
  directory_path : String
  fs : List (String × Doc)
  heap : List (Addr × ObjState)
  cache : List (Identifier × Addr)
  nextAddr : Addr
deriving DecidableEq

/-- LocalFileObjectStore._transform_id: the SHA-256 hex digest of the string
id_type.name ++ "-" ++ id, UTF-8 encoded. -/
def transform_id (identifier : Identifier) : String :=
  Sha256.sha256hex (Sha256.utf8 (identifier.id_type ++ "-" ++ identifier.id))

/-- The file name, inside the store directory, of the document for a given
local-file id string: the format string with suffix .json. -/
def docFile (id : String) : String := id ++ ".json"

/-- The full path the Python code passes to open and os.remove:
directory_path/id.json. -/
def docPath (S : Store) (id : String) : String :=
  S.directory_path ++ "/" ++ docFile id

/-- The source locator that generate_source computes:
file://localhost/directory_path/digest.json. -/
def sourceLocator (S : Store) (i : Identifier) : String :=
  "file://localhost/" ++ S.directory_path ++ "/" ++ transform_id i ++ ".json"

/-- The argument of get_identifiable: an Identifier or an already transformed
local-file id string. -/
inductive StoreId where
  | ident (i : Identifier)
  | str (s : String)
deriving DecidableEq

/-- The local-file id string a StoreId denotes: an Identifier is transformed,
a string is used as is. -/
def storeKey : StoreId → String
  | .ident i => transform_id i
  | .str s => s

/-- LocalFileObjectStore.get_identifiable. The document file is read; on a miss
the FileNotFoundError is turned into a KeyError. The loaded object gets its
source stamped by generate_source. Then, under the cache lock: if a live cached
object for the loaded identification exists and its source equals the source
just computed, the loaded state is merged into it in place and the cached
object is returned; otherwise the loaded object is installed as the cache entry
and returned. A cache entry whose address is dead is a cache miss. -/
def get_identifiable (S : Store) (identifier : StoreId) : Store × Except Err Addr :=
  match lookupA S.fs (docFile (storeKey identifier)) with
  | none => (S, .error .keyError)
  | some doc =>
    let obj : ObjState := { deserialize doc with source := sourceLocator S doc.identification }
    let a := S.nextAddr
    let installed : Store × Except Err Addr :=
      ({ S with heap := insertA S.heap a obj,
                cache := insertA S.cache obj.identification a,
                nextAddr := a + 1 }, .ok a)
    match lookupA S.cache obj.identification with
    | some oldA =>
      match lookupA S.heap oldA with
      | some old_obj =>
        if old_obj.source = obj.source then
          ({ S with heap := insertA S.heap oldA (update_from old_obj obj) }, .ok oldA)
        else installed
      | none => installed
    | none => installed

/-- LocalFileObjectStore.add. If a document for the identification of x already
exists, KeyError is raised and nothing changes; otherwise the serialized
document is written, x is installed in the identity cache under its
identification, and generate_source stamps the source of x. -/
def add (S : Store) (x : Addr) : Store × Except Err Unit :=
  match lookupA S.heap x with
  | none => (S, .error .keyError)
  | some xo =>
    let key := docFile (transform_id xo.identification)
    if (lookupA S.fs key).isSome then (S, .error .keyError)
    else
      ({ S with fs := insertA S.fs key (serialize xo),
                cache := insertA S.cache xo.identification x,
                heap := insertA S.heap x { xo with source := sourceLocator S xo.identification } },
       .ok ())

/-- LocalFileObjectStore.discard. os.remove is attempted first; a missing file
raises KeyError with nothing changed. Then, with the file already removed, the
cache entry of the identification is deleted with the del statement, which
itself raises KeyError when the identification is not a cache key, leaving the
file deleted and the source of x untouched. On full success the source of x is
cleared to the empty string. -/
def discard (S : Store) (x : Addr) : Store × Except Err Unit :=
  match lookupA S.heap x with
  | none => (S, .error .keyError)
  | some xo =>
    let key := docFile (transform_id xo.identification)
    match lookupA S.fs key with
    | none => (S, .error .keyError)
    | some _ =>
      let S1 := { S with fs := eraseA S.fs key }
      match lookupA S1.cache xo.identification with
      | none => (S1, .error .keyError)
      | some _ =>
        ({ S1 with cache := eraseA S1.cache xo.identification,
                   heap := insertA S1.heap x { xo with source := "" } },
         .ok ())

/-- The argument of LocalFileObjectStore.__contains__: an Identifier, an
Identifiable object, or anything else. -/
inductive ContainsArg where
  | ident (i : Identifier)
  | obj (a : Addr)
  | other
deriving DecidableEq

/-- LocalFileObjectStore.__contains__: an existence check of the document file,
with no cache interaction. Anything that is neither an Identifier nor an
Identifiable gives False; a dead address cannot be passed by a caller. -/
def containsStore (S : Store) (x : ContainsArg) : Bool :=
  match x with
  | .ident i => (lookupA S.fs (docFile (transform_id i))).isSome
  | .obj a =>
    match lookupA S.heap a with
    | some xo => (lookupA S.fs (docFile (transform_id xo.identification))).isSome
    | none => false
  | .other => false

/-- LocalFileObjectStore.__len__: the number of entries os.listdir returns. -/
def lenStore (S : Store) : Nat := S.fs.length

/-- The id list snapshotted by LocalFileObjectStore.__iter__:
x.rstrip(".json") for x in os.listdir(directory_path). -/
def iterIds (S : Store) : List String :=
  S.fs.map (fun kv => rstrip kv.1 ".json")

/-- The FileIdentifiableIterator built by __iter__: it owns the snapshot of ids
taken at creation time and resolves them one by one on demand. -/
structure FileIdentifiableIterator where
  ids : List String
deriving DecidableEq

/-- LocalFileObjectStore.__iter__: snapshot the directory listing now, strip the
extension from each entry, and hand the list to the iterator. -/
def iterStore (S : Store) : FileIdentifiableIterator := ⟨iterIds S⟩

/-- FileIdentifiableIterator.__next__ against the current store state: the next
id is taken from the snapshot (the iterator advances even when the resolution
fails), and the object is fetched through get_identifiable on the state the
store has now; .ok none models StopIteration. -/
def iterNext (S : Store) (it : FileIdentifiableIterator) :
    Store × FileIdentifiableIterator × Except Err (Option Addr) :=
  match it.ids with
  | [] => (S, it, .ok none)
  | id1 :: rest =>
    match get_identifiable S (.str id1) with
    | (S2, .ok a) => (S2, ⟨rest⟩, .ok (some a))
    | (S2, .error e) => (S2, ⟨rest⟩, .error e)

/-! ## LocalFileBackend: update_object and commit_object -/

/-- A storage access performed by the backend. -/
inductive IOEvent where
  | read (path : String)
  | write (path : String)
deriving DecidableEq

/-- The store_object argument of the backend class methods: a Referable that is
an Identifiable exactly when it carries an identification; it has a source
attribute and abstract domain state. -/
structure BackendObj where
  identification : Option Identifier
  source : String
  payload : Nat
deriving DecidableEq

/-- The file system the backend acts on, keyed by the path string handed to
open (the source with the scheme prefix replaced away). -/
abbrev BackendFS := List (String × Doc)

/-- LocalFileBackend.update_object. A store_object that is not Identifiable
raises FileBackendSourceError before any storage access. Otherwise the file
name is the source with every occurrence of file://localhost/ removed, the file
is opened for reading (a missing file surfaces the FileNotFoundError of open),
and the loaded data is merged into store_object with update_from. The
updated_object and relative_path arguments play no role in the embedded
behavior and are omitted. -/
def update_object (fs : BackendFS) (store_object : BackendObj) :
    BackendFS × List IOEvent × Except Err BackendObj :=
  match store_object.identification with
  | none => (fs, [], .error .sourceError)
  | some _ =>
    let file_name := pyReplace store_object.source "file://localhost/" ""
    match lookupA fs file_name with
    | none => (fs, [.read file_name], .error .fileNotFound)
    | some doc =>
      (fs, [.read file_name],
       .ok { store_object with identification := some doc.identification,
                               payload := doc.payload })

/-- LocalFileBackend.commit_object. A store_object that is not Identifiable
raises FileBackendSourceError before any storage access. Otherwise the file at
the derived path is opened for writing, which creates or truncates it
unconditionally, and the serialization of store_object is written there. -/
def commit_object (fs : BackendFS) (store_object : BackendObj) :
    BackendFS × List IOEvent × Except Err Unit :=
  match store_object.identification with
  | none => (fs, [], .error .sourceError)
  | some i =>
    let file_name := pyReplace store_object.source "file://localhost/" ""
    (insertA fs file_name ⟨i, store_object.payload⟩, [.write file_name], .ok ())

/-! ## SubmodelElementList -/

/-- The concrete submodel element classes that matter to the embedded
constraints; type identity in Python (type(new) is T) is equality of these
tags, while isinstance would additionally accept the subclass relation, e.g.
AnnotatedRelationshipElement below RelationshipElement. -/
inductive SEType where
  | property
  | range
  | relationshipElement
  | annotatedRelationshipElement
  | blob
  | file
  | referenceElement
  | submodelElementCollection
  | multiLanguageProperty
deriving DecidableEq

/-- A first level member of a SubmodelElementList: its concrete class, its
id_short, its optional semantic_id (References abstracted to Nat) and its
value_type attribute (meaningful for Property and Range, abstracted to Nat). -/
structure SubmodelElement where
  ty : SEType
  id_short : String
  semantic_id : Option Nat
  value_type : Option Nat
deriving DecidableEq

/-- The configuration fields of a SubmodelElementList that the constraint check
reads; they are immutable after construction. -/
structure SMEListCfg where
  type_value_list_element : SEType
  semantic_id_list_element : Option Nat
  value_type_list_element : Option Nat
deriving DecidableEq

/-- SubmodelElementList._check_constraints, line by line: AASd-108 exact type
agreement first, then AASd-107 against semantic_id_list_element, then AASd-109
value_type agreement for Property and Range lists, then AASd-114 pairwise
semantic_id agreement against the existing members (only checked when
semantic_id_list_element is unset, which otherwise already enforces it).
Returns the first violated constraint, or none. -/
def check_constraints (cfg : SMEListCfg) (new : SubmodelElement)
    (existing : List SubmodelElement) : Option Err :=
  if new.ty ≠ cfg.type_value_list_element then
    some (.constraintViolation 108)
  else if cfg.semantic_id_list_element.isSome ∧ new.semantic_id.isSome ∧
      new.semantic_id ≠ cfg.semantic_id_list_element then
    some (.constraintViolation 107)
  else if (cfg.type_value_list_element = .property ∨ cfg.type_value_list_element = .range) ∧
      new.value_type ≠ cfg.value_type_list_element then
    some (.constraintViolation 109)
  else if new.semantic_id.isSome ∧ cfg.semantic_id_list_element = none ∧
      existing.any (fun item => item.semantic_id.isSome && new.semantic_id ≠ item.semantic_id) then
    some (.constraintViolation 114)
  else
    none

/-- Modelled from the spec: OrderedNamespaceSet.insert lives in aas.model.base,
which is not among the sources. Per spec sections 4.2 and 4.3: an insertion
first runs the per-key uniqueness check over the attributes flagged unique
(id_short here), failing with DuplicateKeyError; then the injected secondary
validator with the candidate and the full current membership; only when both
pass is the member linked in at the given position (Python list.insert clamps
the index to the length). A failed insertion leaves the collection unchanged. -/
def onsInsert (cfg : SMEListCfg) (l : List SubmodelElement) (idx : Nat)
    (new : SubmodelElement) : Except Err (List SubmodelElement) :=
  if l.any (fun m => m.id_short = new.id_short) then .error .duplicateKeyError
  else
    match check_constraints cfg new l with
    | some e => .error e
    | none => .ok (l.insertIdx (min idx l.length) new)

/-- Modelled from the spec: OrderedNamespaceSet.extend decomposes into the
per-item insert path at the end of the sequence (spec section 4.3), and every
mutating operation is atomic (spec section 7): when any insertion fails the
whole extension fails and the collection is left exactly as it was. -/
def onsExtend (cfg : SMEListCfg) (l : List SubmodelElement)
    (new : List SubmodelElement) : Except Err (List SubmodelElement) :=
  new.foldlM (fun acc x => onsInsert cfg acc acc.length x) l

/-- A SubmodelElementList: the immutable configuration, the id_short of the
list itself, the order_relevant flag and the ordered member sequence held by
its OrderedNamespaceSet. -/
structure SubmodelElementList where
  id_short : String
  cfg : SMEListCfg
  order_relevant : Bool
  value : List SubmodelElement
deriving DecidableEq

/-- SubmodelElementList.__init__: first the AASd-109 configuration check
(a Property or Range list must set value_type_list_element), then the
OrderedNamespaceSet is built by inserting the initial iterable through the
constraint hook, starting from the empty membership. -/
def mkSubmodelElementList (id_short : String) (cfg : SMEListCfg)
    (order_relevant : Bool) (value : List SubmodelElement) :
    Except Err SubmodelElementList :=
  if (cfg.type_value_list_element = .property ∨ cfg.type_value_list_element = .range) ∧
      cfg.value_type_list_element = none then
    .error (.constraintViolation 109)
  else
    match onsExtend cfg [] value with
    | .error e => .error e
    | .ok items => .ok ⟨id_short, cfg, order_relevant, items⟩

/-- Insertion of a member at a position, through the OrderedNamespaceSet of the
list; a failure leaves the list unchanged. -/
def smelInsert (L : SubmodelElementList) (idx : Nat) (x : SubmodelElement) :
    Except Err SubmodelElementList :=
  match onsInsert L.cfg L.value idx x with
  | .error e => .error e
  | .ok items => .ok { L with value := items }

/-- Extension of the list by an iterable, through the OrderedNamespaceSet;
a failure leaves the list unchanged. -/
def smelExtend (L : SubmodelElementList) (xs : List SubmodelElement) :
    Except Err SubmodelElementList :=
  match onsExtend L.cfg L.value xs with
  | .error e => .error e
  | .ok items => .ok { L with value := items }

/-- Removal of a member (the per-item remove path; removals run no validator
and clear the parent of the member, which this model does not track). -/
def smelRemove (L : SubmodelElementList) (x : SubmodelElement) :
    Except Err SubmodelElementList :=
  if x ∈ L.value then .ok { L with value := L.value.erase x }
  else .error .keyError

/-- Full slice deletion, del value, decomposing into per-item removes. -/
def smelClear (L : SubmodelElementList) : SubmodelElementList :=
  { L with value := [] }

/-- The value setter of SubmodelElementList, from the source: it first deletes
the full slice of the backing OrderedNamespaceSet and then extends it with the
new iterable. When the extension fails, the deletion has already happened: the
returned post state is the cleared list. -/
def smelSetValue (L : SubmodelElementList) (xs : List SubmodelElement) :
    SubmodelElementList × Except Err Unit :=
  let L1 := smelClear L
  match onsExtend L1.cfg L1.value xs with
  | .error e => (L1, .error e)
  | .ok items => ({ L1 with value := items }, .ok ())

/-- The SubmodelElementList states reachable through the public operations:
construction, insert, extend, remove, slice deletion and value assignment
(including the post state of a failed value assignment, which is the cleared
list). -/
inductive ReachableSMEL : SubmodelElementList → Prop where
  | init (id_short : String) (cfg : SMEListCfg) (o : Bool) (xs : List SubmodelElement)
      (L : SubmodelElementList) :
      mkSubmodelElementList id_short cfg o xs = .ok L → ReachableSMEL L
  | insert (L : SubmodelElementList) (idx : Nat) (x : SubmodelElement)
      (L2 : SubmodelElementList) :
      ReachableSMEL L → smelInsert L idx x = .ok L2 → ReachableSMEL L2
  | extend (L : SubmodelElementList) (xs : List SubmodelElement) (L2 : SubmodelElementList) :
      ReachableSMEL L → smelExtend L xs = .ok L2 → ReachableSMEL L2
  | remove (L : SubmodelElementList) (x : SubmodelElement) (L2 : SubmodelElementList) :
      ReachableSMEL L → smelRemove L x = .ok L2 → ReachableSMEL L2
  | clear (L : SubmodelElementList) : ReachableSMEL L → ReachableSMEL (smelClear L)
  | setValue (L : SubmodelElementList) (xs : List SubmodelElement) :
      ReachableSMEL L → ReachableSMEL (smelSetValue L xs).1

/-- The semantic_id agreement invariant of a SubmodelElementList: any two
members that both carry a semantic_id carry equal ones, and when
semantic_id_list_element is set every carried semantic_id equals it. -/
def semOk (cfg : SMEListCfg) (items : List SubmodelElement) : Prop :=
  (∀ m ∈ items, ∀ m2 ∈ items, ∀ s t : Nat,
    m.semantic_id = some s → m2.semantic_id = some t → s = t) ∧
  (∀ r : Nat, cfg.semantic_id_list_element = some r →
    ∀ m ∈ items, ∀ s : Nat, m.semantic_id = some s → s = r)

/-! ## BasicEventElement -/

/-- The direction of a BasicEventElement. -/
inductive Direction where
  | input
  | output
deriving DecidableEq

/-- The state of an event element. -/
inductive StateOfEvent where
  | on
  | off
deriving DecidableEq

/-- A BasicEventElement, reduced to the fields its embedded invariant involves;
durations are abstracted to Int. -/
structure BasicEventElement where
  id_short : String
  direction : Direction
  state : StateOfEvent
  min_interval : Option Int
  max_interval : Option Int
deriving DecidableEq

/-- The direction setter: assigning INPUT while max_interval is set raises
ValueError before any field changes; otherwise the direction is assigned. The
returned state is the post state even on failure. -/
def setDirection (b : BasicEventElement) (direction : Direction) :
    BasicEventElement × Option Err :=
  if direction = .input ∧ b.max_interval ≠ none then (b, some .valueError)
  else ({ b with direction := direction }, none)

/-- The max_interval setter: assigning a value while direction is INPUT raises
ValueError before any field changes; otherwise max_interval is assigned. The
returned state is the post state even on failure. -/
def setMaxInterval (b : BasicEventElement) (max_interval : Option Int) :
    BasicEventElement × Option Err :=
  if max_interval ≠ none ∧ b.direction = .input then (b, some .valueError)
  else ({ b with max_interval := max_interval }, none)

/-- BasicEventElement.__init__. The initializer first assigns
max_interval = None (safe: the setter short-circuits on None before reading the
not yet assigned direction), then the direction through its setter (which
cannot fail, since max_interval is None at that point), the plain attributes,
and finally the real max_interval through its setter, which raises ValueError
for a set interval on an INPUT event. -/
def mkBasicEventElement (id_short : String) (direction : Direction)
    (st : StateOfEvent) (min_interval max_interval : Option Int) :
    Except Err BasicEventElement :=
  match setMaxInterval ⟨id_short, direction, st, min_interval, none⟩ max_interval with
  | (_, some e) => .error e
  | (b1, none) => .ok b1

/-- The BasicEventElement states reachable through the constructor and the
direction and max_interval setters (the post state of a failed setter call
included). -/
inductive ReachableBEE : BasicEventElement → Prop where
  | init (id_short : String) (d : Direction) (st : StateOfEvent)
      (mn mx : Option Int) (b : BasicEventElement) :
      mkBasicEventElement id_short d st mn mx = .ok b → ReachableBEE b
  | setDir (b : BasicEventElement) (d : Direction) :
      ReachableBEE b → ReachableBEE (setDirection b d).1
  | setMax (b : BasicEventElement) (m : Option Int) :
      ReachableBEE b → ReachableBEE (setMaxInterval b m).1

/-! ## Helper lemmas -/

theorem lookupA_insertA_self {α β : Type} [DecidableEq α] (l : List (α × β)) (k : α) (v : β) :
    lookupA (insertA l k v) k = some v := by
  simp [insertA, lookupA]

theorem lookupA_eraseA_ne {α β : Type} [DecidableEq α] (l : List (α × β)) (k k2 : α)
    (h : k ≠ k2) : lookupA (eraseA l k) k2 = lookupA l k2 := by
  induction l with
  | nil => rfl
  | cons kv rest ih =>
    obtain ⟨a, b⟩ := kv
    by_cases hak : a = k
    · subst hak
      have hne : a ≠ k2 := h
      simp [eraseA, lookupA, ih, hne]
    · simp only [eraseA, if_neg hak, lookupA]
      by_cases hk2 : a = k2
      · simp [hk2]
      · simp [hk2, ih]

theorem lookupA_insertA_ne {α β : Type} [DecidableEq α] (l : List (α × β)) (k k2 : α) (v : β)
    (h : k ≠ k2) : lookupA (insertA l k v) k2 = lookupA l k2 := by
  simp only [insertA, lookupA, if_neg h]
  exact lookupA_eraseA_ne l k k2 h

theorem eraseA_eraseA_self {α β : Type} [DecidableEq α] (l : List (α × β)) (k : α) :
    eraseA (eraseA l k) k = eraseA l k := by
  induction l with
  | nil => rfl
  | cons kv rest ih =>
    obtain ⟨a, b⟩ := kv
    by_cases hak : a = k
    · simp [eraseA, hak, ih]
    · simp [eraseA, hak, ih]

theorem eraseA_insertA_self {α β : Type} [DecidableEq α] (l : List (α × β)) (k : α) (v : β) :
    eraseA (insertA l k v) k = eraseA l k := by
  simp [insertA, eraseA, eraseA_eraseA_self]

theorem hexDigit_isHexLower (n : Nat) (h : n < 16) : isHexLower (Sha256.hexDigit n) = true := by
  interval_cases n <;> decide

theorem wordHex_isHexLower (w : Nat) (c : Char) (h : c ∈ Sha256.wordHex w) :
    isHexLower c = true := by
  simp only [Sha256.wordHex, List.mem_map, List.mem_range] at h
  obtain ⟨i, _, rfl⟩ := h
  exact hexDigit_isHexLower _ (Nat.mod_lt _ (by norm_num))

theorem sha256hex_isHexLower (msg : List Nat) (c : Char)
    (h : c ∈ (Sha256.sha256hex msg).data) : isHexLower c = true := by
  simp only [Sha256.sha256hex, List.mem_flatten, List.mem_map] at h
  obtain ⟨l, ⟨w, _, rfl⟩, hc⟩ := h
  exact wordHex_isHexLower w c hc

theorem transform_id_isHexLower (i : Identifier) (c : Char)
    (h : c ∈ (transform_id i).data) : isHexLower c = true :=
  sha256hex_isHexLower _ c h

theorem dropWhile_append_of_forall {α : Type} (p : α → Bool) (l1 l2 : List α)
    (h : ∀ x ∈ l1, p x = true) : (l1 ++ l2).dropWhile p = l2.dropWhile p := by
  induction l1 with
  | nil => rfl
  | cons a t ih =>
    have ha : p a = true := h a (by simp)
    simp only [List.cons_append, List.dropWhile_cons, ha, if_true]
    exact ih (fun x hx => h x (by simp [hx]))

theorem length_dropWhile_le {α : Type} (p : α → Bool) (l : List α) :
    (l.dropWhile p).length ≤ l.length := by
  induction l with
  | nil => simp
  | cons a t ih =>
    rw [List.dropWhile_cons]
    by_cases hp : p a
    · simp only [hp, if_true]
      exact Nat.le_succ_of_le ih
    · simp [hp]

theorem isHexLower_not_in_json (c : Char) (h : isHexLower c = true) :
    (".json".data.contains c) = false := by
  simp only [isHexLower] at h
  have hm : c ∈ "0123456789abcdef".data := by
    simpa [List.contains, List.elem_eq_mem] using h
  fin_cases hm <;> decide

/-! ## Claim C9: rstrip on digest file names -/

/-- C9: for a file name h ++ ".json" whose stem h consists of lowercase hex
digits, the expression filename.rstrip(".json") used by __iter__ yields exactly
h, because no hex digit belongs to the stripped character set; for a stem whose
last character lies in that set the equality fails. -/
theorem C9_rstrip_hex_stems :
    (∀ h : String, (∀ c ∈ h.data, isHexLower c = true) →
        rstrip (h ++ ".json") ".json" = h) ∧
    (∀ (h : String) (c : Char), h.data.getLast? = some c →
        (".json".data.contains c) = true →
        rstrip (h ++ ".json") ".json" ≠ h) := by
  constructor
  · intro h hhex
    obtain ⟨d⟩ := h
    show String.mk ((((String.mk d ++ ".json").data.reverse).dropWhile
      (fun c => ".json".data.contains c)).reverse) = String.mk d
    have hdata : (String.mk d ++ ".json").data = d ++ ".json".data := String.data_append _ _
    rw [hdata, List.reverse_append,
      dropWhile_append_of_forall _ _ _ (by decide)]
    cases hd : d.reverse with
    | nil =>
      have hnil : d = [] := by simpa using congrArg List.reverse hd
      simp [hnil, List.dropWhile]
    | cons c t =>
      have hc : c ∈ d := by
        have hmem : c ∈ d.reverse := by rw [hd]; exact List.mem_cons_self _ _
        simpa using hmem
      have hpc : (".json".data.contains c) = false := isHexLower_not_in_json c (hhex c hc)
      rw [List.dropWhile_cons, hpc]
      simp only [Bool.false_eq_true, if_false]
      rw [← hd, List.reverse_reverse]
  · intro h c hlast hcj heq
    have hhead : h.data.reverse.head? = some c := by
      rw [List.head?_reverse]
      exact hlast
    cases hd : h.data.reverse with
    | nil => rw [hd] at hhead; exact Option.noConfusion hhead
    | cons c0 t =>
      rw [hd] at hhead
      have hc0 : c0 = c := by simpa using hhead
      subst hc0
      have hdat : (((h ++ ".json").data.reverse).dropWhile
          (fun c => ".json".data.contains c)).reverse = h.data := congrArg String.data heq
      have hdata : (h ++ ".json").data = h.data ++ ".json".data := String.data_append _ _
      rw [hdata, List.reverse_append,
        dropWhile_append_of_forall _ _ _ (by decide), hd,
        List.dropWhile_cons, hcj] at hdat
      simp only [if_true] at hdat
      have hlen : (t.dropWhile (fun c => ".json".data.contains c)).length = h.data.length := by
        have := congrArg List.length hdat
        simpa using this
      have hle : (t.dropWhile (fun c => ".json".data.contains c)).length ≤ t.length :=
        length_dropWhile_le _ _
      have hdlen : h.data.length = t.length + 1 := by
        have := congrArg List.length hd
        simpa using this
      omega

/-- Concrete instances for C9: the stem ab survives the strip, the stem aj,
ending in a stripped character, does not. -/
theorem C9_witness :
    rstrip ("ab" ++ ".json") ".json" = "ab" ∧
    rstrip ("aj" ++ ".json") ".json" ≠ "aj" :=
  ⟨C9_rstrip_hex_stems.1 "ab" (by decide),
   C9_rstrip_hex_stems.2 "aj" (Char.ofNat 106) (by decide) (by decide)⟩

/-! ## Claim C4: the storage key and locator derivation -/

/-- C4: _transform_id is the lowercase hex SHA-256 digest of the string
id_type.name ++ "-" ++ id, and add, discard, get_identifiable, __contains__ and
generate_source all address the document directory_path/digest.json, with
source locator file://localhost/directory_path/digest.json. -/
theorem C4_transform_id_addressing (S : Store) (i : Identifier) (x : Addr) (xo : ObjState)
    (hx : lookupA S.heap x = some xo) :
    transform_id i = Sha256.sha256hex (Sha256.utf8 (i.id_type ++ "-" ++ i.id)) ∧
    (∀ c ∈ (transform_id i).data, isHexLower c = true) ∧
    docPath S (transform_id i) = S.directory_path ++ "/" ++ transform_id i ++ ".json" ∧
    sourceLocator S i = "file://localhost/" ++ S.directory_path ++ "/" ++ transform_id i ++ ".json" ∧
    get_identifiable S (.ident i) = get_identifiable S (.str (transform_id i)) ∧
    containsStore S (.ident i) = (lookupA S.fs (docFile (transform_id i))).isSome ∧
    ((add S x).2 = .error Err.keyError ↔
      (lookupA S.fs (docFile (transform_id xo.identification))).isSome = true) ∧
    ((add S x).2 = .ok () →
      (add S x).1.fs = insertA S.fs (docFile (transform_id xo.identification)) (serialize xo)) ∧
    ((discard S x).2 = .ok () →
      (discard S x).1.fs = eraseA S.fs (docFile (transform_id xo.identification))) := by
  refine ⟨rfl, fun c hc => transform_id_isHexLower i c hc, ?_, ?_, rfl, rfl, ?_, ?_, ?_⟩
  · simp [docPath, docFile, String.append_assoc]
  · simp [sourceLocator, String.append_assoc]
  · by_cases hk : (lookupA S.fs (docFile (transform_id xo.identification))).isSome
    · simp [add, hx, hk]
    · simp [add, hx, hk]
  · intro hok
    by_cases hk : (lookupA S.fs (docFile (transform_id xo.identification))).isSome
    · simp [add, hx, hk] at hok
    · simp [add, hx, hk]
  · intro hok
    rcases hfs : lookupA S.fs (docFile (transform_id xo.identification)) with _ | doc
    · simp [discard, hx, hfs] at hok
    · rcases hc : lookupA S.cache xo.identification with _ | a
      · simp [discard, hx, hfs, hc] at hok
      · simp [discard, hx, hfs, hc]

/-- The object used by the C4 witness. -/
def c4xo : ObjState := ⟨⟨"IRI", "urn:a"⟩, "", 5⟩

/-- The store used by the C4 witness. -/
def c4S : Store := ⟨"dir", [], [(0, c4xo)], [], 1⟩

/-- Concrete instance of C4 at a one-object store. -/
theorem C4_witness :
    transform_id ⟨"IRI", "urn:a"⟩ =
      Sha256.sha256hex (Sha256.utf8 ("IRI" ++ "-" ++ "urn:a")) ∧
    (∀ c ∈ (transform_id ⟨"IRI", "urn:a"⟩).data, isHexLower c = true) ∧
    docPath c4S (transform_id ⟨"IRI", "urn:a"⟩) =
      c4S.directory_path ++ "/" ++ transform_id ⟨"IRI", "urn:a"⟩ ++ ".json" ∧
    sourceLocator c4S ⟨"IRI", "urn:a"⟩ =
      "file://localhost/" ++ c4S.directory_path ++ "/" ++ transform_id ⟨"IRI", "urn:a"⟩ ++ ".json" ∧
    get_identifiable c4S (.ident ⟨"IRI", "urn:a"⟩) =
      get_identifiable c4S (.str (transform_id ⟨"IRI", "urn:a"⟩)) ∧
    containsStore c4S (.ident ⟨"IRI", "urn:a"⟩) =
      (lookupA c4S.fs (docFile (transform_id ⟨"IRI", "urn:a"⟩))).isSome ∧
    ((add c4S 0).2 = .error Err.keyError ↔
      (lookupA c4S.fs (docFile (transform_id c4xo.identification))).isSome = true) ∧
    ((add c4S 0).2 = .ok () →
      (add c4S 0).1.fs = insertA c4S.fs (docFile (transform_id c4xo.identification)) (serialize c4xo)) ∧
    ((discard c4S 0).2 = .ok () →
      (discard c4S 0).1.fs = eraseA c4S.fs (docFile (transform_id c4xo.identification))) :=
  C4_transform_id_addressing c4S ⟨"IRI", "urn:a"⟩ 0 c4xo rfl

/-! ## Claim C7: add -/

/-- C7: add raises KeyError exactly when a document already exists at the
derived storage key, and then changes nothing; otherwise it writes the
serialized document, installs the object in the identity cache under its
identification, and stamps its source with the canonical locator. -/
theorem C7_add_spec (S : Store) (x : Addr) (xo : ObjState)
    (hx : lookupA S.heap x = some xo) :
    add S x =
      if (lookupA S.fs (docFile (transform_id xo.identification))).isSome then
        (S, .error Err.keyError)
      else
        ({ S with fs := insertA S.fs (docFile (transform_id xo.identification)) (serialize xo),
                  cache := insertA S.cache xo.identification x,
                  heap := insertA S.heap x
                    { xo with source := sourceLocator S xo.identification } },
         .ok ()) := by
  by_cases hk : (lookupA S.fs (docFile (transform_id xo.identification))).isSome
  · simp [add, hx, hk]
  · simp [add, hx, hk]

/-- The object used by the C7 witness. -/
def c7xo : ObjState := ⟨⟨"IRI", "urn:b"⟩, "", 3⟩

/-- The store used by the C7 witness: empty directory, one live object. -/
def c7S : Store := ⟨"d", [], [(0, c7xo)], [], 1⟩

/-- Concrete instance of C7. -/
theorem C7_witness :
    add c7S 0 =
      if (lookupA c7S.fs (docFile (transform_id c7xo.identification))).isSome then
        (c7S, .error Err.keyError)
      else
        ({ c7S with fs := insertA c7S.fs (docFile (transform_id c7xo.identification)) (serialize c7xo),
                    cache := insertA c7S.cache c7xo.identification 0,
                    heap := insertA c7S.heap 0
                      { c7xo with source := sourceLocator c7S c7xo.identification } },
         .ok ()) :=
  C7_add_spec c7S 0 c7xo rfl

/-! ## Claim C2: discard deletes the file before the cache del can raise -/

/-- The object used by the C2 failing input. -/
def c2xo : ObjState := ⟨⟨"IRI", "urn:a"⟩, "file://localhost/d/x.json", 7⟩

/-- The C2 failing input: the document for the object exists in the directory,
but the identity cache has no entry for its identification (the object was
constructed by the application rather than fetched or added through this
store). -/
def c2S : Store := ⟨"d", insertA [] (docFile (transform_id c2xo.identification)) (serialize c2xo),
  [(0, c2xo)], [], 1⟩

/-- On a store whose cache lacks the identification of x, discard deletes the
document and then raises KeyError from the cache del statement. -/
theorem discard_nocache (S : Store) (x : Addr) (xo : ObjState) (doc : Doc)
    (hx : lookupA S.heap x = some xo)
    (hfs : lookupA S.fs (docFile (transform_id xo.identification)) = some doc)
    (hc : lookupA S.cache xo.identification = none) :
    discard S x = ({ S with fs := eraseA S.fs (docFile (transform_id xo.identification)) },
      .error Err.keyError) := by
  simp only [discard, hx, hfs, hc]

/-- C2 failing input: a document exists at the derived key, yet discard raises
KeyError, and it does so only after os.remove already deleted the document:
the post state has an empty directory while cache and object (its source
included) are untouched. This contradicts both halves of the claim (KeyError
if and only if no document exists; failure leaves the store unchanged), and
contradicts the discard docstring, which promises KeyError only if the object
does not exist in the database. -/
theorem C2_discard_bug :
    (lookupA c2S.fs (docFile (transform_id c2xo.identification))).isSome = true ∧
    discard c2S 0 = ({ c2S with fs := [] }, .error Err.keyError) := by
  have hfs : lookupA c2S.fs (docFile (transform_id c2xo.identification))
      = some (serialize c2xo) := lookupA_insertA_self _ _ _
  have herase : eraseA c2S.fs (docFile (transform_id c2xo.identification))
      = ([] : List (String × Doc)) :=
    eraseA_insertA_self ([] : List (String × Doc)) _ (serialize c2xo)
  have hheap : lookupA c2S.heap 0 = some c2xo := rfl
  have hcache : lookupA c2S.cache c2xo.identification = none := rfl
  constructor
  · rw [hfs]
    rfl
  · have h6 := discard_nocache c2S 0 c2xo (serialize c2xo) hheap hfs hcache
    rw [herase] at h6
    exact h6

/-! ## Behavior of get_identifiable -/

/-- A missing document file turns into KeyError with the store unchanged. -/
theorem get_identifiable_none (S : Store) (id : StoreId)
    (hfs : lookupA S.fs (docFile (storeKey id)) = none) :
    get_identifiable S id = (S, .error .keyError) := by
  simp [get_identifiable, hfs]

/-- When the document exists, a live cache entry for its identification whose
object carries the just computed source makes get_identifiable merge the
loaded state into that object in place and return it. -/
theorem get_identifiable_merge (S : Store) (id : StoreId) (doc : Doc) (a : Addr) (o : ObjState)
    (hfs : lookupA S.fs (docFile (storeKey id)) = some doc)
    (hc : lookupA S.cache doc.identification = some a)
    (hh : lookupA S.heap a = some o)
    (hs : o.source = sourceLocator S doc.identification) :
    get_identifiable S id =
      ({ S with heap := insertA S.heap a (update_from o { deserialize doc with source := sourceLocator S doc.identification }) },
       .ok a) := by
  simp [get_identifiable, deserialize, hfs, hc, hh, hs]

/-- Inversion of a successful get_identifiable: the document was present, the
file system and directory are untouched, and the returned address carries an
object with the loaded identification and payload, the canonical source, and a
cache entry pointing at it. -/
theorem get_identifiable_ok_post (S : Store) (id : StoreId) (S1 : Store) (a : Addr)
    (h : get_identifiable S id = (S1, .ok a)) :
    ∃ doc o, lookupA S.fs (docFile (storeKey id)) = some doc ∧
      S1.fs = S.fs ∧ S1.directory_path = S.directory_path ∧
      lookupA S1.cache doc.identification = some a ∧
      lookupA S1.heap a = some o ∧
      o.source = sourceLocator S doc.identification ∧
      o.identification = doc.identification ∧ o.payload = doc.payload := by
  rcases hfs : lookupA S.fs (docFile (storeKey id)) with _ | doc
  · rw [get_identifiable_none S id hfs] at h
    simp at h
  · refine ⟨doc, ?_⟩
    rcases hc : lookupA S.cache doc.identification with _ | oldA
    · simp only [get_identifiable, deserialize, hfs, hc] at h
      injection h with hS hr
      injection hr with ha
      subst hS
      subst ha
      exact ⟨_, rfl, rfl, rfl, lookupA_insertA_self .., lookupA_insertA_self .., rfl, rfl, rfl⟩
    · rcases hh2 : lookupA S.heap oldA with _ | old_obj
      · simp only [get_identifiable, deserialize, hfs, hc, hh2] at h
        injection h with hS hr
        injection hr with ha
        subst hS
        subst ha
        exact ⟨_, rfl, rfl, rfl, lookupA_insertA_self .., lookupA_insertA_self .., rfl, rfl, rfl⟩
      · by_cases hso : old_obj.source = sourceLocator S doc.identification
        · simp only [get_identifiable, deserialize, hfs, hc, hh2, hso, if_true] at h
          injection h with hS hr
          injection hr with ha
          subst hS
          subst ha
          refine ⟨_, rfl, rfl, rfl, hc, lookupA_insertA_self .., ?_, rfl, rfl⟩
          simp [update_from, hso]
        · simp only [get_identifiable, deserialize, hfs, hc, hh2, hso, if_false] at h
          injection h with hS hr
          injection hr with ha
          subst hS
          subst ha
          exact ⟨_, rfl, rfl, rfl, lookupA_insertA_self .., lookupA_insertA_self .., rfl, rfl, rfl⟩

/-! ## Claim C1: identity preservation across repeated gets -/

/-- C1: after a successful get_identifiable, a second call with the same id
returns the identical object (the same address), and it does so by merging the
freshly loaded document state into that cached instance in place, leaving file
system, cache and directory untouched. -/
theorem C1_get_identifiable_identity (S : Store) (id : StoreId) (S1 : Store) (a : Addr)
    (h : get_identifiable S id = (S1, .ok a)) :
    ∃ (doc : Doc) (old : ObjState),
      lookupA S1.fs (docFile (storeKey id)) = some doc ∧
      lookupA S1.heap a = some old ∧
      get_identifiable S1 id =
        ({ S1 with heap := insertA S1.heap a (update_from old { deserialize doc with source := sourceLocator S1 doc.identification }) },
         .ok a) := by
  obtain ⟨doc, o, hfs, hfs1, hdir, hcache, hheap, hsrc, hident, hpay⟩ :=
    get_identifiable_ok_post S id S1 a h
  refine ⟨doc, o, ?_, hheap, ?_⟩
  · rw [hfs1]; exact hfs
  · apply get_identifiable_merge
    · rw [hfs1]; exact hfs
    · exact hcache
    · exact hheap
    · rw [hsrc]; unfold sourceLocator; rw [hdir]

/-- The document used by the C1 witness. -/
def c1doc : Doc := ⟨⟨"IRI", "urn:c"⟩, 5⟩

/-- The store used by the C1 witness: one document, empty cache and heap. -/
def c1S0 : Store := ⟨"d", [("ab.json", c1doc)], [], [], 0⟩

/-- The store state after the first get_identifiable of the C1 witness. -/
def c1S1 : Store := (get_identifiable c1S0 (.str "ab")).1

/-- Concrete instance of C1: the second call returns address 0 again, merging
in place. -/
theorem C1_witness :
    ∃ (doc : Doc) (old : ObjState),
      lookupA c1S1.fs (docFile (storeKey (.str "ab"))) = some doc ∧
      lookupA c1S1.heap 0 = some old ∧
      get_identifiable c1S1 (.str "ab") =
        ({ c1S1 with heap := insertA c1S1.heap 0 (update_from old { deserialize doc with source := sourceLocator c1S1 doc.identification }) },
         .ok 0) :=
  C1_get_identifiable_identity c1S0 (.str "ab") c1S1 0 rfl

/-! ## Claim C8: iteration -/

/-- Whenever the document is present, get_identifiable succeeds. -/
theorem get_identifiable_isOk (S : Store) (id : StoreId) (doc : Doc)
    (hfs : lookupA S.fs (docFile (storeKey id)) = some doc) :
    ∃ a, (get_identifiable S id).2 = .ok a := by
  simp only [get_identifiable, hfs, deserialize]
  rcases hc : lookupA S.cache doc.identification with _ | oldA
  · simp only [hc]
    exact ⟨_, rfl⟩
  · rcases hh : lookupA S.heap oldA with _ | old_obj
    · simp only [hc, hh]
      exact ⟨_, rfl⟩
    · by_cases hso : old_obj.source = sourceLocator S doc.identification
      · simp only [hc, hh, hso, if_true]
        exact ⟨_, rfl⟩
      · simp only [hc, hh, hso, if_false]
        exact ⟨_, rfl⟩

/-- C8: __iter__ snapshots the stripped directory listing at the moment of the
call (every stored key appears in it), and resolves each id on demand through
get_identifiable against the store state current at request time: an id whose
document was deleted after the snapshot is still visited but fails with
KeyError, while an id still present yields an object loaded from the document
as it is now. -/
theorem C8_iter_snapshot (S Slater : Store) (k : String) (rest : List String) :
    (iterStore S).ids = S.fs.map (fun kv => rstrip kv.1 ".json") ∧
    (∀ name doc, (name, doc) ∈ S.fs → rstrip name ".json" ∈ (iterStore S).ids) ∧
    (lookupA Slater.fs (docFile k) = none →
      iterNext Slater ⟨k :: rest⟩ = (Slater, ⟨rest⟩, .error .keyError)) ∧
    (∀ doc, lookupA Slater.fs (docFile k) = some doc →
      ∃ S2 a o, iterNext Slater ⟨k :: rest⟩ = (S2, ⟨rest⟩, .ok (some a)) ∧
        S2.fs = Slater.fs ∧
        lookupA S2.heap a = some o ∧
        o.identification = doc.identification ∧ o.payload = doc.payload) := by
  refine ⟨rfl, ?_, ?_, ?_⟩
  · intro name doc hmem
    exact List.mem_map.mpr ⟨(name, doc), hmem, rfl⟩
  · intro hnone
    simp [iterNext, get_identifiable_none Slater (.str k) hnone]
  · intro doc hdoc
    obtain ⟨a, ha⟩ := get_identifiable_isOk Slater (.str k) doc hdoc
    rcases hg : get_identifiable Slater (.str k) with ⟨S2, r⟩
    rw [hg] at ha
    have ha2 : r = .ok a := ha
    subst ha2
    obtain ⟨doc2, o, hfs2, hfs1, hdir, hcache, hheap, hsrc, hident, hpay⟩ :=
      get_identifiable_ok_post Slater (.str k) S2 a hg
    have hd2 : doc2 = doc := Option.some.inj (hfs2.symm.trans hdoc)
    subst hd2
    refine ⟨S2, a, o, ?_, hfs1, hheap, hident, hpay⟩
    simp [iterNext, hg]

/-- The document used by the C8 witness. -/
def c8doc : Doc := ⟨⟨"IRI", "urn:d"⟩, 9⟩

/-- The store over which the C8 witness snapshots. -/
def c8S : Store := ⟨"d", [("ab.json", c8doc)], [], [], 0⟩

/-- The later store of the C8 witness, with the document deleted. -/
def c8Sdel : Store := ⟨"d", [], [], [], 0⟩

/-- Concrete instance of C8: the deleted key is still visited and fails, and
the stripped name of the stored document is in the snapshot. -/
theorem C8_witness :
    iterNext c8Sdel ⟨"ab" :: []⟩ = (c8Sdel, ⟨[]⟩, .error .keyError) ∧
    rstrip "ab.json" ".json" ∈ (iterStore c8S).ids :=
  ⟨(C8_iter_snapshot c8S c8Sdel "ab" []).2.2.1 rfl,
   (C8_iter_snapshot c8S c8Sdel "ab" []).2.1 "ab.json" c8doc (by simp [c8S])⟩

/-! ## Claim C3: backend error behavior -/

/-- The store_object of the C3 counterexample: Identifiable, but with a source
that resolves to no existing file. -/
def c3obj : BackendObj := ⟨some ⟨"IRI", "urn:a"⟩, "file://localhost/tmp/x.json", 7⟩

/-- C3 counterexample: on an empty file system, an Identifiable store_object
whose recorded source does not resolve to a local file makes update_object
raise the builtin FileNotFoundError of open, not FileBackendSourceError, and
makes commit_object write the file at the derived path and succeed, rather
than raise at all. -/
theorem C3_counterexample :
    update_object [] c3obj = ([], [.read "tmp/x.json"], .error .fileNotFound) ∧
    Err.fileNotFound ≠ Err.sourceError ∧
    commit_object [] c3obj = ([("tmp/x.json", ⟨⟨"IRI", "urn:a"⟩, 7⟩)], [.write "tmp/x.json"], .ok ()) :=
  ⟨rfl, by decide, rfl⟩

/-- C3 amended: update_object and commit_object raise FileBackendSourceError
exactly when the store_object is not Identifiable, and then touch no storage;
for an Identifiable store_object no FileBackendSourceError is ever raised:
update_object fails with the file-level not-found error when the path derived
from the source has no file, and commit_object unconditionally writes the
serialization to that path. -/
theorem C3_source_error_amended (fs : BackendFS) (o : BackendObj) :
    (o.identification = none →
      update_object fs o = (fs, [], .error .sourceError) ∧
      commit_object fs o = (fs, [], .error .sourceError)) ∧
    (∀ i, o.identification = some i →
      (update_object fs o).2.2 ≠ .error .sourceError ∧
      commit_object fs o =
        (insertA fs (pyReplace o.source "file://localhost/" "") ⟨i, o.payload⟩,
         [.write (pyReplace o.source "file://localhost/" "")], .ok ()) ∧
      (lookupA fs (pyReplace o.source "file://localhost/" "") = none →
        update_object fs o = (fs, [.read (pyReplace o.source "file://localhost/" "")], .error .fileNotFound))) := by
  constructor
  · intro hnone
    exact ⟨by simp [update_object, hnone], by simp [commit_object, hnone]⟩
  · intro i hsome
    refine ⟨?_, by simp [commit_object, hsome], ?_⟩
    · rcases hl : lookupA fs (pyReplace o.source "file://localhost/" "") with _ | doc
      · simp [update_object, hsome, hl]
      · simp [update_object, hsome, hl]
    · intro hl
      simp [update_object, hsome, hl]

/-- Concrete instance of the amended C3 at a non-Identifiable store_object. -/
theorem C3_witness :
    update_object [] (⟨none, "x", 1⟩ : BackendObj) = ([], [], .error .sourceError) ∧
    commit_object [] (⟨none, "x", 1⟩ : BackendObj) = ([], [], .error .sourceError) :=
  (C3_source_error_amended [] ⟨none, "x", 1⟩).1 rfl

/-! ## Claim C5: the type agreement constraint AASd-108 -/

/-- The configuration of the C5 lists: a Property list. -/
def c5cfg : SMEListCfg := ⟨.property, none, some 0⟩

/-- A well-typed member. -/
def c5good : SubmodelElement := ⟨.property, "a", none, some 0⟩

/-- A candidate of the wrong concrete type. -/
def c5bad : SubmodelElement := ⟨.range, "b", none, some 0⟩

/-- A Property list with one member. -/
def c5L : SubmodelElementList := ⟨"lst", c5cfg, true, [c5good]⟩

/-- C5 counterexample: assigning a new iterable to value, with a candidate of
the wrong concrete type, raises the AASd-108 ConstraintViolation but does not
leave the membership unchanged: the previous members are gone, because the
value setter clears the list before extending it. -/
theorem C5_counterexample :
    smelSetValue c5L [c5bad] = (smelClear c5L, .error (.constraintViolation 108)) ∧
    (smelSetValue c5L [c5bad]).1.value = [] ∧
    c5L.value ≠ [] :=
  ⟨rfl, rfl, by decide⟩

/-- One failing insertion makes the whole extension fail, unchanged. -/
theorem onsExtend_cons_error (cfg : SMEListCfg) (l : List SubmodelElement)
    (x : SubmodelElement) (xs : List SubmodelElement) (e : Err)
    (h : onsInsert cfg l l.length x = .error e) :
    onsExtend cfg l (x :: xs) = .error e := by
  unfold onsExtend
  rw [List.foldlM_cons, h]
  rfl

/-- C5 amended: a candidate whose concrete type differs from
type_value_list_element is rejected with the AASd-108 ConstraintViolation on
every insertion path; construction, insert and extend leave the membership,
order and length unchanged, but a value assignment leaves the list cleared,
the slice deletion having preceded the failed extension. -/
theorem C5_type_constraint_amended (L : SubmodelElementList) (x : SubmodelElement)
    (idx : Nat) (xs : List SubmodelElement) (ids : String) (orl : Bool)
    (hty : x.ty ≠ L.cfg.type_value_list_element)
    (hfresh : ∀ m ∈ L.value, m.id_short ≠ x.id_short) :
    smelInsert L idx x = .error (.constraintViolation 108) ∧
    smelExtend L (x :: xs) = .error (.constraintViolation 108) ∧
    smelSetValue L (x :: xs) = (smelClear L, .error (.constraintViolation 108)) ∧
    (¬ ((L.cfg.type_value_list_element = .property ∨ L.cfg.type_value_list_element = .range) ∧
        L.cfg.value_type_list_element = none) →
      mkSubmodelElementList ids L.cfg orl (x :: xs) = .error (.constraintViolation 108)) := by
  have hcc : ∀ l : List SubmodelElement,
      check_constraints L.cfg x l = some (.constraintViolation 108) := by
    intro l
    unfold check_constraints
    rw [if_pos hty]
  have hany : (L.value.any fun m => m.id_short = x.id_short) = false := by
    rw [List.any_eq_false]
    intro m hm
    simpa using hfresh m hm
  have hinsert : ∀ i, onsInsert L.cfg L.value i x = .error (.constraintViolation 108) := by
    intro i
    unfold onsInsert
    rw [hany, hcc]
    rfl
  have hinsert0 : onsInsert L.cfg [] ([] : List SubmodelElement).length x
      = .error (.constraintViolation 108) := by
    unfold onsInsert
    rw [hcc]
    rfl
  refine ⟨?_, ?_, ?_, ?_⟩
  · unfold smelInsert
    rw [hinsert idx]
  · unfold smelExtend
    rw [onsExtend_cons_error _ _ _ _ _ (hinsert _)]
  · dsimp only [smelSetValue, smelClear]
    rw [onsExtend_cons_error _ _ _ _ _ hinsert0]
  · intro h109
    unfold mkSubmodelElementList
    rw [if_neg h109, onsExtend_cons_error _ _ _ _ _ hinsert0]

/-- Concrete instance of the amended C5 at the one-member Property list. -/
theorem C5_witness :
    smelInsert c5L 0 c5bad = .error (.constraintViolation 108) ∧
    smelExtend c5L (c5bad :: []) = .error (.constraintViolation 108) ∧
    smelSetValue c5L (c5bad :: []) = (smelClear c5L, .error (.constraintViolation 108)) ∧
    (¬ ((c5L.cfg.type_value_list_element = .property ∨ c5L.cfg.type_value_list_element = .range) ∧
        c5L.cfg.value_type_list_element = none) →
      mkSubmodelElementList "l2" c5L.cfg true (c5bad :: []) = .error (.constraintViolation 108)) :=
  C5_type_constraint_amended c5L c5bad 0 [] "l2" true (by decide) (by decide)

/-! ## Claim C6: semantic_id agreement -/

/-- The empty membership satisfies the agreement invariant. -/
theorem semOk_nil (cfg : SMEListCfg) : semOk cfg [] := by
  constructor
  · intro m hm
    exact absurd hm (List.not_mem_nil m)
  · intro r _ m hm
    exact absurd hm (List.not_mem_nil m)

/-- The agreement invariant is preserved by shrinking the membership. -/
theorem semOk_subset (cfg : SMEListCfg) (l1 l2 : List SubmodelElement)
    (hsub : ∀ m ∈ l2, m ∈ l1) (h : semOk cfg l1) : semOk cfg l2 :=
  ⟨fun m hm m2 hm2 => h.1 m (hsub m hm) m2 (hsub m2 hm2),
   fun r hr m hm => h.2 r hr m (hsub m hm)⟩

/-- What a passed constraint check says about semantic ids: agreement with
semantic_id_list_element when it is set, agreement with every existing member
when it is not. -/
theorem check_constraints_none_sem (cfg : SMEListCfg) (x : SubmodelElement)
    (l : List SubmodelElement) (h : check_constraints cfg x l = none) :
    (∀ r, cfg.semantic_id_list_element = some r → ∀ s, x.semantic_id = some s → s = r) ∧
    (cfg.semantic_id_list_element = none → ∀ s, x.semantic_id = some s →
      ∀ m ∈ l, ∀ t, m.semantic_id = some t → t = s) := by
  unfold check_constraints at h
  split at h
  · exact absurd h (by simp)
  · split at h
    · exact absurd h (by simp)
    · split at h
      · exact absurd h (by simp)
      · split at h
        · exact absurd h (by simp)
        · rename_i h1 h2 h3 h4
          constructor
          · intro r hr s hs
            by_contra hne
            exact h2 ⟨by simp [hr], by simp [hs], by simp [hr, hs, hne]⟩
          · intro hnone s hs m hm t ht
            by_contra hne
            refine h4 ⟨by simp [hs], hnone, ?_⟩
            refine List.any_eq_true.mpr ⟨m, hm, ?_⟩
            simp [hs, ht]
            exact fun hc => hne hc.symm

/-- A successful insertion preserves the agreement invariant. -/
theorem semOk_onsInsert (cfg : SMEListCfg) (l : List SubmodelElement) (idx : Nat)
    (x : SubmodelElement) (l2 : List SubmodelElement)
    (h : onsInsert cfg l idx x = .ok l2) (hsem : semOk cfg l) : semOk cfg l2 := by
  unfold onsInsert at h
  split at h
  · exact absurd h (by simp)
  · rcases hcc : check_constraints cfg x l with _ | e
    · rw [hcc] at h
      have hl2 : l2 = l.insertIdx (min idx l.length) x := (Except.ok.inj h).symm
      obtain ⟨hA, hB⟩ := check_constraints_none_sem cfg x l hcc
      have hmem : ∀ m ∈ l2, m = x ∨ m ∈ l := by
        intro m hm
        rw [hl2] at hm
        exact (List.mem_insertIdx (Nat.min_le_right idx l.length)).mp hm
      constructor
      · intro m hm m2 hm2 s t hs ht
        rcases hmem m hm with rfl | hml
        · rcases hmem m2 hm2 with rfl | hm2l
          · rw [hs] at ht
            exact Option.some.inj ht
          · rcases hside : cfg.semantic_id_list_element with _ | r0
            · exact (hB hside s hs m2 hm2l t ht).symm
            · rw [hA r0 hside s hs]
              exact (hsem.2 r0 hside m2 hm2l t ht).symm
        · rcases hmem m2 hm2 with rfl | hm2l
          · rcases hside : cfg.semantic_id_list_element with _ | r0
            · exact hB hside t ht m hml s hs
            · rw [hA r0 hside t ht]
              exact hsem.2 r0 hside m hml s hs
          · exact hsem.1 m hml m2 hm2l s t hs ht
      · intro r hr m hm s hs
        rcases hmem m hm with rfl | hml
        · exact hA r hr s hs
        · exact hsem.2 r hr m hml s hs
    · rw [hcc] at h
      exact absurd h (by simp)

/-- A successful extension preserves the agreement invariant. -/
theorem semOk_onsExtend (cfg : SMEListCfg) (l xs : List SubmodelElement)
    (l2 : List SubmodelElement) (h : onsExtend cfg l xs = .ok l2)
    (hsem : semOk cfg l) : semOk cfg l2 := by
  induction xs generalizing l with
  | nil =>
    have hl : l = l2 := Except.ok.inj h
    rw [← hl]
    exact hsem
  | cons x rest ih =>
    unfold onsExtend at h
    rw [List.foldlM_cons] at h
    rcases hi : onsInsert cfg l l.length x with e | lmid
    · rw [hi] at h
      exact absurd h (by simp [Bind.bind, Except.bind])
    · rw [hi] at h
      have h2 : onsExtend cfg lmid rest = .ok l2 := h
      exact ih lmid h2 (semOk_onsInsert cfg l l.length x lmid hi hsem)

/-- Every reachable SubmodelElementList satisfies the agreement invariant. -/
theorem semOk_reachable (L : SubmodelElementList) (h : ReachableSMEL L) :
    semOk L.cfg L.value := by
  induction h with
  | init ids cfg o xs L hmk =>
    unfold mkSubmodelElementList at hmk
    split at hmk
    · exact absurd hmk (by simp)
    · rcases he : onsExtend cfg [] xs with e | items
      · rw [he] at hmk
        exact absurd hmk (by simp)
      · rw [he] at hmk
        have hL : L = ⟨ids, cfg, o, items⟩ := (Except.ok.inj hmk).symm
        rw [hL]
        exact semOk_onsExtend cfg [] xs items he (semOk_nil cfg)
  | insert L idx x L2 _ hins ih =>
    unfold smelInsert at hins
    rcases hi : onsInsert L.cfg L.value idx x with e | items
    · rw [hi] at hins
      exact absurd hins (by simp)
    · rw [hi] at hins
      have hL2 : L2 = { L with value := items } := (Except.ok.inj hins).symm
      rw [hL2]
      exact semOk_onsInsert L.cfg L.value idx x items hi ih
  | extend L xs L2 _ hext ih =>
    unfold smelExtend at hext
    rcases he : onsExtend L.cfg L.value xs with e | items
    · rw [he] at hext
      exact absurd hext (by simp)
    · rw [he] at hext
      have hL2 : L2 = { L with value := items } := (Except.ok.inj hext).symm
      rw [hL2]
      exact semOk_onsExtend L.cfg L.value xs items he ih
  | remove L x L2 _ hrem ih =>
    unfold smelRemove at hrem
    split at hrem
    · have hL2 : L2 = { L with value := L.value.erase x } := (Except.ok.inj hrem).symm
      rw [hL2]
      exact semOk_subset L.cfg L.value (L.value.erase x)
        (fun m hm => List.mem_of_mem_erase hm) ih
    · exact absurd hrem (by simp)
  | clear L _ _ =>
    exact semOk_nil L.cfg
  | setValue L xs _ _ =>
    dsimp only [smelSetValue, smelClear]
    rcases he : onsExtend L.cfg [] xs with e | items
    · exact semOk_nil L.cfg
    · exact semOk_onsExtend L.cfg [] xs items he (semOk_nil L.cfg)

/-- A candidate that would break the agreement is rejected by some
ConstraintViolation of the check. -/
theorem check_constraints_violation (cfg : SMEListCfg) (x : SubmodelElement)
    (l : List SubmodelElement) (s : Nat) (hs : x.semantic_id = some s)
    (hviol : (∃ r, cfg.semantic_id_list_element = some r ∧ s ≠ r) ∨
      (cfg.semantic_id_list_element = none ∧ ∃ m ∈ l, ∃ t, m.semantic_id = some t ∧ t ≠ s)) :
    ∃ n, check_constraints cfg x l = some (.constraintViolation n) := by
  unfold check_constraints
  by_cases h1 : x.ty ≠ cfg.type_value_list_element
  · exact ⟨108, by rw [if_pos h1]⟩
  · rw [if_neg h1]
    rcases hviol with ⟨r, hr, hne⟩ | ⟨hnone, m, hm, t, ht, hne⟩
    · have hcond : cfg.semantic_id_list_element.isSome ∧ x.semantic_id.isSome ∧
          x.semantic_id ≠ cfg.semantic_id_list_element :=
        ⟨by simp [hr], by simp [hs], by simp [hr, hs, hne]⟩
      exact ⟨107, by rw [if_pos hcond]⟩
    · have h2 : ¬(cfg.semantic_id_list_element.isSome ∧ x.semantic_id.isSome ∧
          x.semantic_id ≠ cfg.semantic_id_list_element) := by simp [hnone]
      rw [if_neg h2]
      by_cases h3 : (cfg.type_value_list_element = .property ∨ cfg.type_value_list_element = .range) ∧
          x.value_type ≠ cfg.value_type_list_element
      · exact ⟨109, by rw [if_pos h3]⟩
      · rw [if_neg h3]
        have h4 : x.semantic_id.isSome ∧ cfg.semantic_id_list_element = none ∧
            (l.any fun item => item.semantic_id.isSome && x.semantic_id ≠ item.semantic_id) := by
          refine ⟨by simp [hs], hnone, List.any_eq_true.mpr ⟨m, hm, ?_⟩⟩
          simp [hs, ht]
          exact fun hc => hne hc.symm
        exact ⟨114, by rw [if_pos h4]⟩

/-- C6: in every reachable SubmodelElementList, any two members that both
carry a semantic_id carry equal ones, and a set semantic_id_list_element is
matched by every carried semantic_id; an insertion that would break this (its
id_short being no duplicate, so that the uniqueness check cannot mask the
constraint check) fails with a ConstraintViolation, before the member is
linked in. -/
theorem C6_semantic_id_agreement (L : SubmodelElementList) (h : ReachableSMEL L) :
    semOk L.cfg L.value ∧
    (∀ (idx : Nat) (x : SubmodelElement) (s : Nat),
      x.semantic_id = some s →
      (∀ m ∈ L.value, m.id_short ≠ x.id_short) →
      ((∃ r, L.cfg.semantic_id_list_element = some r ∧ s ≠ r) ∨
       (L.cfg.semantic_id_list_element = none ∧
        ∃ m ∈ L.value, ∃ t, m.semantic_id = some t ∧ t ≠ s)) →
      ∃ n, smelInsert L idx x = .error (.constraintViolation n)) := by
  refine ⟨semOk_reachable L h, ?_⟩
  intro idx x s hs hfresh hviol
  obtain ⟨n, hn⟩ := check_constraints_violation L.cfg x L.value s hs hviol
  have hany : (L.value.any fun m => m.id_short = x.id_short) = false := by
    rw [List.any_eq_false]
    intro m hm
    simpa using hfresh m hm
  refine ⟨n, ?_⟩
  unfold smelInsert onsInsert
  rw [hany, hn]
  rfl

/-- The configuration of the C6 witness list. -/
def c6cfg : SMEListCfg := ⟨.property, none, some 0⟩

/-- The initial members of the C6 witness list. -/
def c6xs : List SubmodelElement := [⟨.property, "a", some 4, some 0⟩]

/-- The C6 witness list, as built by the constructor. -/
def c6L : SubmodelElementList := ⟨"l", c6cfg, true, c6xs⟩

/-- Concrete instance of C6 at a freshly constructed one-member list. -/
theorem C6_witness :
    semOk c6L.cfg c6L.value ∧
    (∀ (idx : Nat) (x : SubmodelElement) (s : Nat),
      x.semantic_id = some s →
      (∀ m ∈ c6L.value, m.id_short ≠ x.id_short) →
      ((∃ r, c6L.cfg.semantic_id_list_element = some r ∧ s ≠ r) ∨
       (c6L.cfg.semantic_id_list_element = none ∧
        ∃ m ∈ c6L.value, ∃ t, m.semantic_id = some t ∧ t ≠ s)) →
      ∃ n, smelInsert c6L idx x = .error (.constraintViolation n)) :=
  C6_semantic_id_agreement c6L (ReachableSMEL.init "l" c6cfg true c6xs c6L rfl)

/-! ## Claim C10: the BasicEventElement direction invariant -/

/-- C10: every reachable BasicEventElement satisfies that an INPUT direction
comes with an unset max_interval, and the two setters reject any assignment
that would break this with ValueError, leaving both fields unchanged. -/
theorem C10_basic_event_element (b : BasicEventElement) (h : ReachableBEE b) :
    (b.direction = .input → b.max_interval = none) ∧
    (∀ d, (d = Direction.input ∧ b.max_interval ≠ none) →
      setDirection b d = (b, some .valueError)) ∧
    (∀ m, (m ≠ none ∧ b.direction = .input) →
      setMaxInterval b m = (b, some .valueError)) := by
  refine ⟨?_, ?_, ?_⟩
  · induction h with
    | init ids d st mn mx b0 hmk =>
      unfold mkBasicEventElement setMaxInterval at hmk
      split at hmk
      · exact absurd hmk (by simp)
      · rename_i b1 hcond
        have hb1 : b0 = b1 := (Except.ok.inj hmk).symm
        subst hb1
        split at hcond
        · exact absurd (congrArg Prod.snd hcond) (by simp)
        · rename_i hc2
          have hb : b0 = ⟨ids, d, st, mn, mx⟩ := (congrArg Prod.fst hcond).symm
          rw [hb]
          intro hdir
          by_contra hmx
          exact hc2 ⟨hmx, hdir⟩
    | setDir b0 d _ ih =>
      unfold setDirection
      split
      · exact ih
      · rename_i hcond
        intro hdir
        by_contra hmx
        exact hcond ⟨hdir, hmx⟩
    | setMax b0 m _ ih =>
      unfold setMaxInterval
      split
      · exact ih
      · rename_i hcond
        intro hdir
        by_contra hmx
        exact hcond ⟨hmx, hdir⟩
  · intro d hd
    unfold setDirection
    rw [if_pos hd]
  · intro m hm
    unfold setMaxInterval
    rw [if_pos hm]

/-- The BasicEventElement of the C10 witness. -/
def c10b : BasicEventElement := ⟨"e", .output, .on, none, some 1⟩

/-- Concrete instance of C10 at a constructed OUTPUT event. -/
theorem C10_witness :
    (c10b.direction = .input → c10b.max_interval = none) ∧
    (∀ d, (d = Direction.input ∧ c10b.max_interval ≠ none) →
      setDirection c10b d = (c10b, some .valueError)) ∧
    (∀ m, (m ≠ none ∧ c10b.direction = .input) →
      setMaxInterval c10b m = (c10b, some .valueError)) :=
  C10_basic_event_element c10b (ReachableBEE.init "e" .output .on none (some 1) c10b rfl)

end Basyx
